import Mathlib

set_option maxHeartbeats 1600000
set_option maxRecDepth 4000

/-!
Shallow embedding of the InstantTexture texture-baking core, translated from
`src/instant_texture/utils.py` and `src/instant_texture/converter.py`.

Modelling conventions:
* numpy float arithmetic is modelled over `ℚ` (exact; the algorithmic branch
  structure does not depend on rounding),
* `uint8` texel data is modelled as `Nat` with an explicit `% 256` at the one
  place where numpy wraparound matters (the degenerate-triangle color sum in
  `barycentric_interpolate`, whose arguments are the uint8 vertex-color rows
  supplied by the converter),
* the texture buffer is a function `ℕ → ℕ → Texel` mutated by explicit
  functional update,
* external collaborators (the cv2 inpainting primitive, the mesh loader and
  the xatlas unwrapper) are modelled at their interface boundary.
-/

/-- A 2D point (a numpy array of two scalars), modelled over `ℚ`. -/
abbrev Point := ℚ × ℚ

/-- Componentwise difference of two 2D points (numpy array subtraction). -/
def subP (a b : Point) : Point := (a.1 - b.1, a.2 - b.2)

/-- The dot product `np.dot` of two 2D vectors. -/
def dotQ (a b : Point) : ℚ := a.1 * b.1 + a.2 * b.2

/-- Value `np.clip(x, lo, hi)`, which is `min (max x lo) hi`. -/
def clipQ (x lo hi : ℚ) : ℚ := min (max x lo) hi

/-- One RGBA texel of the uint8 texture buffer / one uint8 vertex color row. -/
structure Texel where
  r : ℕ
  g : ℕ
  b : ℕ
  a : ℕ
  deriving DecidableEq, Repr

/-- An RGBA color with rational (float-modelled) channels, as produced by
`barycentric_interpolate`. -/
structure ColQ where
  r : ℚ
  g : ℚ
  b : ℚ
  a : ℚ
  deriving DecidableEq

/-- Componentwise addition of float color vectors. -/
def addC (x y : ColQ) : ColQ := ⟨x.r + y.r, x.g + y.g, x.b + y.b, x.a + y.a⟩

/-- Scalar multiplication of a float color vector. -/
def smulC (s : ℚ) (c : ColQ) : ColQ := ⟨s * c.r, s * c.g, s * c.b, s * c.a⟩

/-- Componentwise `np.clip` of a float color vector. -/
def clipC (c : ColQ) (lo hi : ℚ) : ColQ :=
  ⟨clipQ c.r lo hi, clipQ c.g lo hi, clipQ c.b lo hi, clipQ c.a lo hi⟩

/-- Promotion of a uint8 color row to float channels (numpy type promotion
that happens when a uint8 array is multiplied by a float weight). -/
def texelToColQ (t : Texel) : ColQ := ⟨(t.r : ℚ), (t.g : ℚ), (t.b : ℚ), (t.a : ℚ)⟩

/-- Term `d00 = np.dot(v0v1, v0v1)` of `barycentric_interpolate`. -/
def bary_d00 (v0 v1 : Point) : ℚ := dotQ (subP v1 v0) (subP v1 v0)

/-- Term `d01 = np.dot(v0v1, v0v2)` of `barycentric_interpolate`. -/
def bary_d01 (v0 v1 v2 : Point) : ℚ := dotQ (subP v1 v0) (subP v2 v0)

/-- Term `d11 = np.dot(v0v2, v0v2)` of `barycentric_interpolate`. -/
def bary_d11 (v0 v2 : Point) : ℚ := dotQ (subP v2 v0) (subP v2 v0)

/-- Term `d20 = np.dot(v0p, v0v1)` of `barycentric_interpolate`. -/
def bary_d20 (v0 v1 p : Point) : ℚ := dotQ (subP p v0) (subP v1 v0)

/-- Term `d21 = np.dot(v0p, v0v2)` of `barycentric_interpolate`. -/
def bary_d21 (v0 v2 p : Point) : ℚ := dotQ (subP p v0) (subP v2 v0)

/-- Term `denom = d00 * d11 - d01 * d01` of `barycentric_interpolate`. -/
def bary_denom (v0 v1 v2 : Point) : ℚ :=
  bary_d00 v0 v1 * bary_d11 v0 v2 - bary_d01 v0 v1 v2 * bary_d01 v0 v1 v2

/-- Weight `v = (d11 * d20 - d01 * d21) / denom` of `barycentric_interpolate`. -/
def bary_vw_v (v0 v1 v2 p : Point) : ℚ :=
  (bary_d11 v0 v2 * bary_d20 v0 v1 p - bary_d01 v0 v1 v2 * bary_d21 v0 v2 p) /
    bary_denom v0 v1 v2

/-- Weight `w = (d00 * d21 - d01 * d20) / denom` of `barycentric_interpolate`. -/
def bary_vw_w (v0 v1 v2 p : Point) : ℚ :=
  (bary_d00 v0 v1 * bary_d21 v0 v2 p - bary_d01 v0 v1 v2 * bary_d20 v0 v1 p) /
    bary_denom v0 v1 v2

/-- One channel of `(c0 + c1 + c2) / 3` in the degenerate branch of
`barycentric_interpolate`. The three summands are numpy uint8 arrays (the
vertex-color rows the converter passes in), so the channel sum wraps modulo
256 before Python true division promotes it to float. -/
def uint8_sum3_avg (x y z : ℕ) : ℚ := (((x + y + z) % 256 : ℕ) : ℚ) / 3

/-- Translation of `utils.barycentric_interpolate(v0, v1, v2, c0, c1, c2, p)`.
Points carry float (ℚ) coordinates; colors are the uint8 RGBA rows supplied by
the converter. In the non-degenerate branch the float weights promote the
uint8 channels to float, so the weighted sum is exact ℚ arithmetic. -/
def barycentric_interpolate (v0 v1 v2 : Point) (c0 c1 c2 : Texel) (p : Point) : ColQ :=
  if |bary_denom v0 v1 v2| < 1 / 100000000 then
    ⟨uint8_sum3_avg c0.r c1.r c2.r, uint8_sum3_avg c0.g c1.g c2.g,
     uint8_sum3_avg c0.b c1.b c2.b, uint8_sum3_avg c0.a c1.a c2.a⟩
  else
    let v := bary_vw_v v0 v1 v2 p
    let w := bary_vw_w v0 v1 v2 p
    let u := 1 - v - w
    clipC
      (addC
        (addC (smulC (clipQ u 0 1) (texelToColQ c0)) (smulC (clipQ v 0 1) (texelToColQ c1)))
        (smulC (clipQ w 0 1) (texelToColQ c2)))
      0 255

/-- The interpolation routine as the spec section 4.1 words it, written as a
second definition for the refinement claim C5: solve the 2x2 system for the
barycentric weights via the standard dot-product formulation, take
`u = 1 - v - w`, clamp each weight to [0,1] independently (no renormalization
after clamping), and clamp the weighted color sum to [0,255]. -/
def barycentric_interpolate_spec (v0 v1 v2 : Point) (c0 c1 c2 : Texel) (p : Point) : ColQ :=
  let d00 := dotQ (subP v1 v0) (subP v1 v0)
  let d01 := dotQ (subP v1 v0) (subP v2 v0)
  let d11 := dotQ (subP v2 v0) (subP v2 v0)
  let d20 := dotQ (subP p v0) (subP v1 v0)
  let d21 := dotQ (subP p v0) (subP v2 v0)
  let denom := d00 * d11 - d01 * d01
  let v := (d11 * d20 - d01 * d21) / denom
  let w := (d00 * d21 - d01 * d20) / denom
  let u := 1 - v - w
  let cu := clipQ u 0 1
  let cv := clipQ v 0 1
  let cw := clipQ w 0 1
  clipC
    (addC (addC (smulC cu (texelToColQ c0)) (smulC cv (texelToColQ c1)))
      (smulC cw (texelToColQ c2)))
    0 255

/-- Translation of the nested helper `sign(p1, p2, p3)` of
`utils.is_point_in_triangle`. -/
def triSign (p1 p2 p3 : Point) : ℚ :=
  (p1.1 - p3.1) * (p2.2 - p3.2) - (p2.1 - p3.1) * (p1.2 - p3.2)

/-- Translation of `utils.is_point_in_triangle(p, v0, v1, v2)`. -/
def is_point_in_triangle (p v0 v1 v2 : Point) : Bool :=
  let d1 := triSign p v0 v1
  let d2 := triSign p v1 v2
  let d3 := triSign p v2 v0
  decide (¬ ((d1 < 0 ∨ d2 < 0 ∨ d3 < 0) ∧ (d1 > 0 ∨ d2 > 0 ∨ d3 > 0)))

example : is_point_in_triangle (1/2, 1/4) (0, 0) (1, 0) (0, 1) = true := by
  norm_num [is_point_in_triangle, triSign]
example : is_point_in_triangle (2, 2) (0, 0) (1, 0) (0, 1) = false := by
  norm_num [is_point_in_triangle, triSign]
example : bary_denom (0, 0) (1, 0) (0, 1) = 1 := by
  norm_num [bary_denom, bary_d00, bary_d01, bary_d11, dotQ, subP]
example :
    barycentric_interpolate (0, 0) (0, 0) (0, 0) ⟨200, 200, 200, 255⟩
      ⟨200, 200, 200, 255⟩ ⟨200, 200, 200, 255⟩ (0, 0) =
      ⟨88 / 3, 88 / 3, 88 / 3, 253 / 3⟩ := by
  norm_num [barycentric_interpolate, bary_denom, bary_d00, bary_d01, bary_d11,
    dotQ, subP, uint8_sum3_avg]

/-! ## Triangle rasterizer (Converter.convert, lines 66 to 86) -/

/-- The texture buffer, a square grid of RGBA uint8 texels, modelled as a
total function on coordinates (row, column). -/
abbrev Buffer := ℕ → ℕ → Texel

/-- The all-zero texel of a freshly allocated buffer. -/
def zeroTexel : Texel := ⟨0, 0, 0, 0⟩

/-- Buffer produced by `np.zeros((buffer_size, buffer_size, 4), dtype=np.uint8)`. -/
def zeroBuffer : Buffer := fun _ _ => zeroTexel

/-- In-place assignment `buffer[y, x] = t`, modelled as functional update. -/
def writeBuf (buf : Buffer) (y x : ℕ) (t : Texel) : Buffer :=
  fun y2 x2 => if y2 = y ∧ x2 = x then t else buf y2 x2

/-- Resolution of a (possibly negative) numpy array index against axis length
`B`: valid negative indices count from the end. In the rasterizer loop the
indices are always within `[0, B-1]`, so this is just `Int.toNat`. -/
def npIndex (B : ℕ) (i : ℤ) : ℕ := (if i < 0 then i + (B : ℤ) else i).toNat

/-- Conversion `astype(int)` of a numpy float scalar: truncation toward zero. -/
def astypeInt (q : ℚ) : ℤ := if q < 0 then ⌈q⌉ else ⌊q⌋

/-- Line 70 to 72 of converter.py: `(uv * (self.buffer_size - 1)).astype(int)`
applied to one UV coordinate pair. -/
def mapUV (B : ℕ) (uv : Point) : ℤ × ℤ :=
  (astypeInt (uv.1 * ((B : ℚ) - 1)), astypeInt (uv.2 * ((B : ℚ) - 1)))

/-- Python `range(lo, hi + 1)` over integers, as iterated by the texel loops. -/
def pyRange (lo hi : ℤ) : List ℤ :=
  (List.range (hi + 1 - lo).toNat).map (fun (i : ℕ) => lo + (i : ℤ))

/-- Promotion of an integer buffer coordinate pair to a float point, as numpy
does when mixing the int UV arrays with float scalars. -/
def toPointZ (q : ℤ × ℤ) : Point := ((q.1 : ℚ), (q.2 : ℚ))

/-- The sampled texel center `p = np.array([x + 0.5, y + 0.5])` (line 81). -/
def texelCenter (x y : ℤ) : Point := ((x : ℚ) + 1 / 2, (y : ℚ) + 1 / 2)

/-- The coverage test of line 82: the texel center against the mapped triangle. -/
def insideAt (q0 q1 q2 : ℤ × ℤ) (x y : ℤ) : Bool :=
  is_point_in_triangle (texelCenter x y) (toPointZ q0) (toPointZ q1) (toPointZ q2)

/-- Conversion `np.clip(color, 0, 255).astype(np.uint8)` of line 84: clamp each
float channel to [0, 255], then truncate toward zero (floor, as the clamped
value is nonnegative). -/
def clipTruncTexel (c : ColQ) : Texel :=
  ⟨(⌊clipQ c.r 0 255⌋).toNat, (⌊clipQ c.g 0 255⌋).toNat,
   (⌊clipQ c.b 0 255⌋).toNat, (⌊clipQ c.a 0 255⌋).toNat⟩

/-- The texel value written at line 83 to 86 for buffer coordinate (x, y). -/
def colorAt (q0 q1 q2 : ℤ × ℤ) (c0 c1 c2 : Texel) (x y : ℤ) : Texel :=
  clipTruncTexel
    (barycentric_interpolate (toPointZ q0) (toPointZ q1) (toPointZ q2) c0 c1 c2
      (texelCenter x y))

/-- One face of the UV-unwrapped mesh at the rasterizer boundary: the three
UV coordinates `uvs[face]` and the three uint8 color rows
`vertex_colors[face]` (the external loader and the xatlas unwrapper produce
these; the rasterizer consumes them per face). -/
structure Face where
  uv0 : Point
  uv1 : Point
  uv2 : Point
  c0 : Texel
  c1 : Texel
  c2 : Texel

/-- The inner texel loop `for x in range(min_x, max_x + 1)` (lines 80 to 86)
at a fixed row `y`. -/
def rasterInner (B : ℕ) (q0 q1 q2 : ℤ × ℤ) (c0 c1 c2 : Texel) (y : ℤ)
    (xs : List ℤ) (buf : Buffer) : Buffer :=
  xs.foldl
    (fun b x =>
      if insideAt q0 q1 q2 x y then
        writeBuf b (npIndex B y) (npIndex B x) (colorAt q0 q1 q2 c0 c1 c2 x y)
      else b)
    buf

/-- The outer texel loop `for y in range(min_y, max_y + 1)` (lines 79 to 86). -/
def rasterOuter (B : ℕ) (q0 q1 q2 : ℤ × ℤ) (c0 c1 c2 : Texel)
    (xs ys : List ℤ) (buf : Buffer) : Buffer :=
  ys.foldl (fun b y => rasterInner B q0 q1 q2 c0 c1 c2 y xs b) buf

/-- The body of the per-face loop of `Converter.convert` (lines 66 to 86): map
the three UV coordinates to integer buffer coordinates, form the clamped
bounding box (`np.floor` and `np.ceil` on integers are the identity and are
dropped), and run the texel loops. -/
def rasterizeFace (B : ℕ) (buf : Buffer) (f : Face) : Buffer :=
  let q0 := mapUV B f.uv0
  let q1 := mapUV B f.uv1
  let q2 := mapUV B f.uv2
  let minX := max (min q0.1 (min q1.1 q2.1)) 0
  let maxX := min (max q0.1 (max q1.1 q2.1)) ((B : ℤ) - 1)
  let minY := max (min q0.2 (min q1.2 q2.2)) 0
  let maxY := min (max q0.2 (max q1.2 q2.2)) ((B : ℤ) - 1)
  rasterOuter B q0 q1 q2 f.c0 f.c1 f.c2 (pyRange minX maxX) (pyRange minY maxY) buf

/-- The loop `for face in mesh.faces` (line 66), in iteration order. -/
def rasterizeFaces (B : ℕ) (faces : List Face) (buf : Buffer) : Buffer :=
  faces.foldl (rasterizeFace B) buf

/-! ### Spec-side description of the rasterizer (for the refinement claim C6) -/

/-- UV-to-buffer mapping as the spec words it: `floor(uv * (buffer_size - 1))`. -/
def specMapUV (B : ℕ) (uv : Point) : ℤ × ℤ :=
  (⌊uv.1 * ((B : ℚ) - 1)⌋, ⌊uv.2 * ((B : ℚ) - 1)⌋)

/-- Clamp of an integer to `[lo, hi]`. -/
def clampZ (v lo hi : ℤ) : ℤ := max lo (min v hi)

/-- Low x edge of the bounding box as the spec words it: min of the three
mapped x coordinates, clamped to `[0, B - 1]`. -/
def specLoX (B : ℕ) (f : Face) : ℤ :=
  clampZ (min (specMapUV B f.uv0).1 (min (specMapUV B f.uv1).1 (specMapUV B f.uv2).1))
    0 ((B : ℤ) - 1)

/-- High x edge of the bounding box as the spec words it. -/
def specHiX (B : ℕ) (f : Face) : ℤ :=
  clampZ (max (specMapUV B f.uv0).1 (max (specMapUV B f.uv1).1 (specMapUV B f.uv2).1))
    0 ((B : ℤ) - 1)

/-- Low y edge of the bounding box as the spec words it. -/
def specLoY (B : ℕ) (f : Face) : ℤ :=
  clampZ (min (specMapUV B f.uv0).2 (min (specMapUV B f.uv1).2 (specMapUV B f.uv2).2))
    0 ((B : ℤ) - 1)

/-- High y edge of the bounding box as the spec words it. -/
def specHiY (B : ℕ) (f : Face) : ℤ :=
  clampZ (max (specMapUV B f.uv0).2 (max (specMapUV B f.uv1).2 (specMapUV B f.uv2).2))
    0 ((B : ℤ) - 1)

/-- Predicate: buffer texel (x, y) lies in the clamped bounding box of the face and
its center passes the triangle test (the condition under which the claim says
the rasterizer writes the texel). -/
def coveredBy (B : ℕ) (f : Face) (x y : ℕ) : Prop :=
  specLoX B f ≤ (x : ℤ) ∧ (x : ℤ) ≤ specHiX B f ∧
  specLoY B f ≤ (y : ℤ) ∧ (y : ℤ) ≤ specHiY B f ∧
  insideAt (specMapUV B f.uv0) (specMapUV B f.uv1) (specMapUV B f.uv2)
    (x : ℤ) (y : ℤ) = true

instance (B : ℕ) (f : Face) (x y : ℕ) : Decidable (coveredBy B f x y) := by
  unfold coveredBy; infer_instance

/-- Pointwise description of the rasterization of one face, following the words of
the spec (section 4.2): every texel of the clamped bounding box whose center
lies in the triangle receives the interpolated, clamped, truncated color at
buffer position (y, x); every other texel keeps its prior value. -/
def specRasterizeFace (B : ℕ) (f : Face) (buf : Buffer) : Buffer :=
  fun y x =>
    if coveredBy B f x y then
      colorAt (specMapUV B f.uv0) (specMapUV B f.uv1) (specMapUV B f.uv2)
        f.c0 f.c1 f.c2 (x : ℤ) (y : ℤ)
    else buf y x

/-- Membership of a UV coordinate in the unit square, the precondition of the
claim about the rasterizer. -/
def inUnitSquare (uv : Point) : Prop :=
  0 ≤ uv.1 ∧ uv.1 ≤ 1 ∧ 0 ≤ uv.2 ∧ uv.2 ≤ 1

/-! ## Gap filler (Converter._inpaint_texture, lines 135 to 146) -/

/-- A three-channel pixel (the BGR image handed to cv2.inpaint). -/
abbrev RGB := ℕ × ℕ × ℕ

/-- Conversion `cv2.cvtColor(image_bgra, cv2.COLOR_BGRA2BGR)`: drop the fourth
channel, keep the first three. -/
def cvtColor_BGRA2BGR (buf : Buffer) : ℕ → ℕ → RGB :=
  fun y x => ((buf y x).r, (buf y x).g, (buf y x).b)

/-- The hole mask of line 140: nonzero exactly where the coverage (alpha)
channel is zero. -/
def maskOf (buf : Buffer) : ℕ → ℕ → Bool := fun y x => (buf y x).a == 0

/-- Modelled from the spec (section 4.3 and section 6): the external
inpainting primitive `cv2.inpaint(..., flags=cv2.INPAINT_TELEA)` is a black
box that fills every masked pixel with a color propagated from nearby
unmasked pixels and returns every unmasked pixel unchanged. The propagated
donor colors are abstracted as the function `fill`; no claim in scope depends
on their values. -/
def cv2_inpaint (img : ℕ → ℕ → RGB) (mask : ℕ → ℕ → Bool)
    (fill : ℕ → ℕ → RGB) : ℕ → ℕ → RGB :=
  fun y x => if mask y x then fill y x else img y x

/-- Conversion `cv2.cvtColor(inpainted_bgr, cv2.COLOR_BGR2BGRA)`: append an
alpha channel set to the maximal channel value 255. -/
def cvtColor_BGR2BGRA (img : ℕ → ℕ → RGB) : Buffer :=
  fun y x => ⟨(img y x).1, (img y x).2.1, (img y x).2.2, 255⟩

/-- Row reversal `inpainted_bgra[::-1]` of a B-row image. -/
def flipRows (B : ℕ) (buf : Buffer) : Buffer := fun y x => buf (B - 1 - y) x

/-- Translation of `Converter._inpaint_texture` (lines 135 to 146), with the
external inpainting primitive abstracted by `fill`: build the zero-alpha hole
mask, drop alpha, inpaint, restore a fully opaque alpha channel, and flip the
rows. -/
def inpaint_texture (B : ℕ) (fill : ℕ → ℕ → RGB) (buf : Buffer) : Buffer :=
  flipRows B (cvtColor_BGR2BGRA (cv2_inpaint (cvtColor_BGRA2BGR buf) (maskOf buf) fill))

/-! ## Output path validation (Converter._validate_output_path, lines 108 to 133) -/

/-- Characters of the final path component (after the last slash), as
`pathlib.PurePath.name` computes it for the simple relative paths in scope. -/
def pyNameChars (s : List Char) : List Char :=
  (s.reverse.takeWhile (fun c => c != '/')).reverse

/-- Index of the last dot in a name (`str.rfind`), if any. -/
def lastDotIdx (name : List Char) : Option ℕ :=
  (name.reverse.findIdx? (fun c => c == '.')).map (fun ridx => name.length - 1 - ridx)

/-- Characters of `pathlib.PurePath.suffix` of a name: the part from the last
dot on, unless the dot is leading or trailing (CPython pathlib keeps the
suffix only when `0 < i < len(name) - 1`). -/
def pySuffixChars (name : List Char) : List Char :=
  match lastDotIdx name with
  | none => []
  | some i => if 0 < i ∧ i < name.length - 1 then name.drop i else []

/-- The `path.suffix` of a path string. -/
def pySuffix (s : String) : String := String.mk (pySuffixChars (pyNameChars s.toList))

/-- The `path.with_suffix(suf)` of a path string: replace the existing suffix
of the final component (or append when there is none). -/
def pyWithSuffix (s : String) (suf : String) : String :=
  let cs := s.toList
  let name := pyNameChars cs
  let sfx := pySuffixChars name
  String.mk (cs.take (cs.length - name.length) ++
    name.take (name.length - sfx.length) ++ suf.toList)

/-- ASCII lowering of one character (`str.lower` restricted to the ASCII
range, which covers extension comparison). -/
def asciiLowerChar (c : Char) : Char :=
  if c.isUpper then Char.ofNat (c.toNat + 32) else c

/-- Python `str.lower()` over ASCII strings. -/
def pyLower (s : String) : String := String.mk (s.toList.map asciiLowerChar)

/-- The second argument CPython `warnings.warn` receives in its `category`
position: either an actual Warning subclass, or (as at converter.py line
127 to 129) a plain `str` instance. -/
inductive WarnCategory where
  | warningClass : WarnCategory
  | strInstance : String → WarnCategory

/-- Models CPython `warnings.warn(message, category)`: when `category` is a
Warning subclass the warning message is recorded and control continues; when
it is a `str` instance CPython raises
`TypeError: category must be a Warning subclass, not str`
(quote characters of the CPython message omitted from the literal). -/
def warnings_warn (message : String) (category : WarnCategory) :
    Except String (List String) :=
  match category with
  | .warningClass => .ok [message]
  | .strInstance _ => .error "TypeError: category must be a Warning subclass, not str"

/-- Translation of `Converter._validate_output_path` (lines 108 to 133).
Returns the warnings emitted and the resulting path, or the raised exception.
At line 127 to 129 the source passes a second message string
(`f-string Saving as new_path`) as the positional `category` argument of
`warnings.warn`. -/
def validate_output_path (output_path : Option String) :
    Except String (List String × String) :=
  match output_path with
  | none => .ok ([], "output.glb")
  | some path =>
    if pyLower (pySuffix path) ≠ ".glb" then
      match
        warnings_warn
          ("Output file extension changed from " ++ pySuffix path ++ " to .glb")
          (.strInstance ("Saving as " ++ pyWithSuffix path ".glb")) with
      | .error e => .error e
      | .ok ws => .ok (ws, pyWithSuffix path ".glb")
    else .ok ([], path)

/-! ## The Converter and its convert operation -/

/-- The Converter instance state set up by `Converter.__init__` (lines 17 to
35): the immutable configuration and the texture buffer, which `__init__`
allocates zero-filled with side `texture_size * upscale_factor`. -/
structure Converter where
  texture_size : ℕ
  upscaling : ℕ
  buffer_size : ℕ
  median_size : ℕ
  blur_radius : ℕ
  texture_buffer : Buffer

/-- Translation of `Converter.__init__`. -/
def Converter.init (texture_size upscale_factor median_filter_size blur_filter_radius : ℕ) :
    Converter :=
  ⟨texture_size, upscale_factor, texture_size * upscale_factor,
   median_filter_size, blur_filter_radius, zeroBuffer⟩

/-- The input mesh at the convert boundary: whether the loaded mesh exposes
per-vertex colors (`hasattr(mesh.visual, "vertex_colors")`), and the
per-face UVs and uint8 colors after the external xatlas parametrization and
the `vmapping` reindexing (lines 56 to 68). -/
structure PyMesh where
  has_vertex_colors : Bool
  faces : List Face

/-- Observable outcome of one `Converter.convert` call: the updated instance
state, the warnings emitted, the path written by `mesh.export` (if reached),
and the Python return value. -/
structure ConvertOutcome where
  state : Converter
  warnings : List String
  exported : Option String
  retval : Option String

/-- Translation of `Converter.convert` (lines 37 to 106): validate the output
path (which may raise), abort with a warning and return None when the mesh
has no vertex colors, otherwise rasterize every face into the texture buffer of the instance, run `_inpaint_texture` over it, store the result back into
`self.texture_buffer`, export, and return the output path. The PIL filtering
and resizing of `self.texture` (a separate image object derived from the
buffer) and the trimesh export are external collaborators; the export is
recorded as the written path. -/
def Converter.convert (c : Converter) (fill : ℕ → ℕ → RGB) (mesh : PyMesh)
    (output_mesh_path : Option String) : Except String ConvertOutcome :=
  match validate_output_path output_mesh_path with
  | .error e => .error e
  | .ok (ws, out) =>
    if mesh.has_vertex_colors = false then
      .ok ⟨c, ws ++ ["Input mesh must be an obj file with vertex colors."], none, none⟩
    else
      .ok ⟨⟨c.texture_size, c.upscaling, c.buffer_size, c.median_size, c.blur_radius,
            inpaint_texture c.buffer_size fill
              (rasterizeFaces c.buffer_size mesh.faces c.texture_buffer)⟩,
           ws, some out, some out⟩

/-! ## Concrete objects used by witnesses and counterexamples -/

/-- A concrete donor-color function for the abstracted inpainting primitive. -/
def fill0 : ℕ → ℕ → RGB := fun _ _ => (9, 9, 9)

/-- A mesh with vertex colors and no faces. -/
def mesh0 : PyMesh := ⟨true, []⟩

/-- A mesh without vertex colors. -/
def meshNC : PyMesh := ⟨false, []⟩

/-- A Converter constructed with texture_size 1 and upscale_factor 1
(buffer side 1). -/
def conv0 : Converter := Converter.init 1 1 3 1

/-- The instance state after one successful convert call on `conv0`, which is
the state a second convert call on the same instance starts from. -/
def conv0after : Converter :=
  match conv0.convert fill0 mesh0 none with
  | .ok o => o.state
  | .error _ => conv0

/-- The unit-corner triangle face of spec property P6: UVs at (0,0), (1,0),
(0,1) with red, green, blue vertex colors. -/
def face0 : Face :=
  ⟨((0 : ℚ), (0 : ℚ)), ((1 : ℚ), (0 : ℚ)), ((0 : ℚ), (1 : ℚ)),
   ⟨255, 0, 0, 255⟩, ⟨0, 255, 0, 255⟩, ⟨0, 0, 255, 255⟩⟩

/-- Bound stating a color row holds valid uint8 channel values. -/
def TexelLe255 (t : Texel) : Prop :=
  t.r ≤ 255 ∧ t.g ≤ 255 ∧ t.b ≤ 255 ∧ t.a ≤ 255

instance (t : Texel) : Decidable (TexelLe255 t) := by
  unfold TexelLe255; infer_instance

/-- The exact unweighted average of three uint8 color rows, channelwise over
ℚ (the value claim C7 expects at the triangle centroid). -/
def avgColQ (c0 c1 c2 : Texel) : ColQ :=
  ⟨((c0.r : ℚ) + c1.r + c2.r) / 3, ((c0.g : ℚ) + c1.g + c2.g) / 3,
   ((c0.b : ℚ) + c1.b + c2.b) / 3, ((c0.a : ℚ) + c1.a + c2.a) / 3⟩

/-! ## Helper lemmas -/

theorem inTri_iff (p v0 v1 v2 : Point) :
    is_point_in_triangle p v0 v1 v2 = true ↔
      ((0 ≤ triSign p v0 v1 ∧ 0 ≤ triSign p v1 v2 ∧ 0 ≤ triSign p v2 v0) ∨
       (triSign p v0 v1 ≤ 0 ∧ triSign p v1 v2 ≤ 0 ∧ triSign p v2 v0 ≤ 0)) := by
  simp only [is_point_in_triangle, decide_eq_true_eq, not_and_or, not_or, not_lt,
    gt_iff_lt]

theorem triSign_swap (p a b : Point) : triSign p b a = -triSign p a b := by
  unfold triSign; ring

theorem ipt_rot (p a b c : Point) :
    is_point_in_triangle p b c a = is_point_in_triangle p a b c := by
  simp only [is_point_in_triangle]
  rw [decide_eq_decide]
  tauto

theorem ipt_swap01 (p a b c : Point) :
    is_point_in_triangle p b a c = is_point_in_triangle p a b c := by
  simp only [is_point_in_triangle]
  rw [decide_eq_decide]
  rw [triSign_swap p a b, triSign_swap p c a, triSign_swap p b c]
  simp only [neg_lt_zero, neg_pos, gt_iff_lt]
  tauto

/-! ## Claim theorems -/

/-- C1: the spec claims that for an output path with a missing or wrong
extension, path validation replaces the extension with .glb, warns, and
returns the corrected path without raising. On the code path for a wrong
extension, `warnings.warn` receives a second message string in its category
position, so CPython raises TypeError instead; a None path and a path
already ending in .glb (case-insensitively) behave as claimed. -/
theorem C1_validate_output_path_behavior :
    validate_output_path none = .ok ([], "output.glb") ∧
    validate_output_path (some "model.glb") = .ok ([], "model.glb") ∧
    validate_output_path (some "MODEL.GLB") = .ok ([], "MODEL.GLB") ∧
    validate_output_path (some "model.obj") =
      .error "TypeError: category must be a Warning subclass, not str" ∧
    validate_output_path (some "model") =
      .error "TypeError: category must be a Warning subclass, not str" :=
  ⟨rfl, rfl, rfl, rfl, rfl⟩

/-- C3: `is_point_in_triangle` returns true exactly when the three edge
cross products are not a mix of strictly positive and strictly negative
values, i.e. all three are nonnegative or all three are nonpositive. -/
theorem C3_point_in_triangle_sign_characterization (p v0 v1 v2 : Point) :
    is_point_in_triangle p v0 v1 v2 = true ↔
      ((0 ≤ triSign p v0 v1 ∧ 0 ≤ triSign p v1 v2 ∧ 0 ≤ triSign p v2 v0) ∨
       (triSign p v0 v1 ≤ 0 ∧ triSign p v1 v2 ≤ 0 ∧ triSign p v2 v0 ≤ 0)) :=
  inTri_iff p v0 v1 v2

/-- C10: `is_point_in_triangle` is invariant under every permutation of the
three triangle vertices, so the coverage test does not depend on the winding
order of the face. -/
theorem C10_point_in_triangle_permutation_invariant (p v0 v1 v2 : Point) :
    is_point_in_triangle p v1 v2 v0 = is_point_in_triangle p v0 v1 v2 ∧
    is_point_in_triangle p v2 v0 v1 = is_point_in_triangle p v0 v1 v2 ∧
    is_point_in_triangle p v1 v0 v2 = is_point_in_triangle p v0 v1 v2 ∧
    is_point_in_triangle p v0 v2 v1 = is_point_in_triangle p v0 v1 v2 ∧
    is_point_in_triangle p v2 v1 v0 = is_point_in_triangle p v0 v1 v2 :=
  ⟨ipt_rot p v0 v1 v2,
   (ipt_rot p v1 v2 v0).trans (ipt_rot p v0 v1 v2),
   ipt_swap01 p v0 v1 v2,
   (ipt_swap01 p v2 v0 v1).trans ((ipt_rot p v1 v2 v0).trans (ipt_rot p v0 v1 v2)),
   (ipt_swap01 p v1 v2 v0).trans (ipt_rot p v0 v1 v2)⟩

/-- C4: the claim says the degenerate branch returns exactly the unweighted
average (c0 + c1 + c2) / 3 of the three input colors. The converter passes
uint8 color rows, whose channel sums wrap modulo 256 under numpy uint8
arithmetic before the division by 3, so for three copies of the color
(200, 200, 200, 255) at a fully degenerate triangle the code returns
(88/3, 88/3, 88/3, 253/3), not the average (200, 200, 200, 255): the red
channel 88/3 differs from (200 + 200 + 200) / 3 = 200. -/
theorem C4_degenerate_uint8_wraparound :
    |bary_denom (0, 0) (0, 0) (0, 0)| < 1 / 100000000 ∧
    barycentric_interpolate (0, 0) (0, 0) (0, 0) ⟨200, 200, 200, 255⟩
        ⟨200, 200, 200, 255⟩ ⟨200, 200, 200, 255⟩ (0, 0) =
      ⟨88 / 3, 88 / 3, 88 / 3, 253 / 3⟩ ∧
    (88 : ℚ) / 3 ≠ ((200 : ℚ) + 200 + 200) / 3 := by
  refine ⟨by norm_num [bary_denom, bary_d00, bary_d01, bary_d11, dotQ, subP], ?_,
    by norm_num⟩
  norm_num [barycentric_interpolate, bary_denom, bary_d00, bary_d01, bary_d11,
    dotQ, subP, uint8_sum3_avg]

/-- C5: whenever the denominator clears the 1e-8 degeneracy threshold,
`barycentric_interpolate` computes exactly what the spec describes: the
dot-product barycentric weights with u = 1 - v - w, each weight clamped to
[0,1] independently with no renormalization, and the weighted color sum
clamped to [0, 255]. -/
theorem C5_nondegenerate_matches_spec (v0 v1 v2 : Point) (c0 c1 c2 : Texel)
    (p : Point) (h : 1 / 100000000 ≤ |bary_denom v0 v1 v2|) :
    barycentric_interpolate v0 v1 v2 c0 c1 c2 p =
      barycentric_interpolate_spec v0 v1 v2 c0 c1 c2 p := by
  have hn : ¬ |bary_denom v0 v1 v2| < 1 / 100000000 := not_lt.2 h
  simp only [barycentric_interpolate, barycentric_interpolate_spec, if_neg hn]
  rfl

/-- Witness for C5 at a concrete non-degenerate triangle. -/
theorem C5_witness :
    1 / 100000000 ≤ |bary_denom (0, 0) (1, 0) (0, 1)| ∧
    barycentric_interpolate (0, 0) (1, 0) (0, 1) ⟨10, 20, 30, 255⟩ ⟨1, 2, 3, 255⟩
        ⟨5, 6, 7, 255⟩ (1 / 4, 1 / 4) =
      barycentric_interpolate_spec (0, 0) (1, 0) (0, 1) ⟨10, 20, 30, 255⟩
        ⟨1, 2, 3, 255⟩ ⟨5, 6, 7, 255⟩ (1 / 4, 1 / 4) :=
  ⟨by norm_num [bary_denom, bary_d00, bary_d01, bary_d11, dotQ, subP],
   C5_nondegenerate_matches_spec (0, 0) (1, 0) (0, 1) ⟨10, 20, 30, 255⟩
     ⟨1, 2, 3, 255⟩ ⟨5, 6, 7, 255⟩ (1 / 4, 1 / 4)
     (by norm_num [bary_denom, bary_d00, bary_d01, bary_d11, dotQ, subP])⟩

/-- C8: after the gap-filling step, every texel of the resulting buffer has a
nonzero coverage (alpha) value, and the rows are flipped along the vertical
axis: for y < B, processed row y of the rasterized buffer ends up at output
row B - 1 - y. -/
theorem C8_gap_fill_alpha_and_flip (B : ℕ) (fill : ℕ → ℕ → RGB) (buf : Buffer) :
    (∀ y x, (inpaint_texture B fill buf y x).a ≠ 0) ∧
    (∀ y x, y < B →
      inpaint_texture B fill buf ((B - 1) - y) x =
        cvtColor_BGR2BGRA
          (cv2_inpaint (cvtColor_BGRA2BGR buf) (maskOf buf) fill) y x) := by
  constructor
  · intro y x
    simp [inpaint_texture, flipRows, cvtColor_BGR2BGRA]
  · intro y x hy
    simp only [inpaint_texture, flipRows]
    congr 1
    omega

/-- Witness for C8 on a concrete one-texel buffer. -/
theorem C8_witness :
    0 < 1 ∧
    inpaint_texture 1 fill0 zeroBuffer ((1 - 1) - 0) 0 =
      cvtColor_BGR2BGRA
        (cv2_inpaint (cvtColor_BGRA2BGR zeroBuffer) (maskOf zeroBuffer) fill0) 0 0 :=
  ⟨by decide, (C8_gap_fill_alpha_and_flip 1 fill0 zeroBuffer).2 0 0 (by decide)⟩

/-- C9: when the loaded mesh has no vertex colors and the output path
validates, convert emits the non-fatal warning, returns None, raises no
exception, exports nothing, and leaves the instance state untouched. -/
theorem C9_missing_colors_warn_return_none (c : Converter) (fill : ℕ → ℕ → RGB)
    (mesh : PyMesh) (p : Option String) (ws : List String) (out : String)
    (hm : mesh.has_vertex_colors = false)
    (hv : validate_output_path p = .ok (ws, out)) :
    c.convert fill mesh p =
      .ok ⟨c, ws ++ ["Input mesh must be an obj file with vertex colors."],
           none, none⟩ := by
  simp only [Converter.convert, hv, hm, if_pos]

/-- Witness for C9 on a concrete colorless mesh. -/
theorem C9_witness :
    meshNC.has_vertex_colors = false ∧
    validate_output_path none = .ok ([], "output.glb") ∧
    conv0.convert fill0 meshNC none =
      .ok ⟨conv0, [] ++ ["Input mesh must be an obj file with vertex colors."],
           none, none⟩ :=
  ⟨rfl, rfl, C9_missing_colors_warn_return_none conv0 fill0 meshNC none []
    "output.glb" rfl rfl⟩

/-- C2 counterexample: the claim says that at the start of every convert call
the texture buffer is freshly zero-filled, so no texel data from one call is
visible at the start of a later call. `conv0after` is the instance state at
the start of the second convert call on the same Converter (buffer side 1);
its texel (0, 0) holds the inpainted, fully opaque value produced by the
first call, not zero. -/
theorem C2_counterexample : conv0after.texture_buffer 0 0 ≠ zeroTexel := by decide

/-- C2 amended: the texture buffer is allocated zero-filled once, at
Converter construction, with side texture_size * upscale_factor; a convert
call does not reallocate it but rasterizes into the buffer the instance
currently holds (the one left behind by any previous call) and stores the
gap-filled result back into the instance. -/
theorem C2_amended_buffer_lifecycle :
    (∀ ts uf ms br y x, (Converter.init ts uf ms br).texture_buffer y x = zeroTexel) ∧
    (∀ (c : Converter) (fill : ℕ → ℕ → RGB) (mesh : PyMesh) (p : Option String)
       (ws : List String) (out : String),
      mesh.has_vertex_colors = true →
      validate_output_path p = .ok (ws, out) →
      c.convert fill mesh p =
        .ok ⟨⟨c.texture_size, c.upscaling, c.buffer_size, c.median_size,
              c.blur_radius,
              inpaint_texture c.buffer_size fill
                (rasterizeFaces c.buffer_size mesh.faces c.texture_buffer)⟩,
             ws, some out, some out⟩) := by
  constructor
  · intro ts uf ms br y x; rfl
  · intro c fill mesh p ws out hm hv
    simp only [Converter.convert, hv, hm]
    rfl

/-- Witness for the amended C2 at a concrete converter and mesh. -/
theorem C2_amended_witness :
    mesh0.has_vertex_colors = true ∧
    validate_output_path none = .ok ([], "output.glb") ∧
    conv0.convert fill0 mesh0 none =
      .ok ⟨⟨conv0.texture_size, conv0.upscaling, conv0.buffer_size,
            conv0.median_size, conv0.blur_radius,
            inpaint_texture conv0.buffer_size fill0
              (rasterizeFaces conv0.buffer_size mesh0.faces conv0.texture_buffer)⟩,
           [], some "output.glb", some "output.glb"⟩ :=
  ⟨rfl, rfl, C2_amended_buffer_lifecycle.2 conv0 fill0 mesh0 none []
    "output.glb" rfl rfl⟩

/-! ## Weight evaluations for claim C7 -/

theorem bary_v_at_v0 (v0 v1 v2 : Point) : bary_vw_v v0 v1 v2 v0 = 0 := by
  have h : bary_d11 v0 v2 * bary_d20 v0 v1 v0 -
      bary_d01 v0 v1 v2 * bary_d21 v0 v2 v0 = 0 := by
    simp only [bary_d11, bary_d20, bary_d01, bary_d21, dotQ, subP]; ring
  unfold bary_vw_v; rw [h, zero_div]

theorem bary_w_at_v0 (v0 v1 v2 : Point) : bary_vw_w v0 v1 v2 v0 = 0 := by
  have h : bary_d00 v0 v1 * bary_d21 v0 v2 v0 -
      bary_d01 v0 v1 v2 * bary_d20 v0 v1 v0 = 0 := by
    simp only [bary_d00, bary_d20, bary_d01, bary_d21, dotQ, subP]; ring
  unfold bary_vw_w; rw [h, zero_div]

theorem bary_v_at_v1 (v0 v1 v2 : Point) (hne : bary_denom v0 v1 v2 ≠ 0) :
    bary_vw_v v0 v1 v2 v1 = 1 := by
  have h : bary_d11 v0 v2 * bary_d20 v0 v1 v1 -
      bary_d01 v0 v1 v2 * bary_d21 v0 v2 v1 = bary_denom v0 v1 v2 := by
    simp only [bary_d00, bary_d11, bary_d20, bary_d01, bary_d21, bary_denom,
      dotQ, subP]; ring
  unfold bary_vw_v; rw [h, div_self hne]

theorem bary_w_at_v1 (v0 v1 v2 : Point) : bary_vw_w v0 v1 v2 v1 = 0 := by
  have h : bary_d00 v0 v1 * bary_d21 v0 v2 v1 -
      bary_d01 v0 v1 v2 * bary_d20 v0 v1 v1 = 0 := by
    simp only [bary_d00, bary_d20, bary_d01, bary_d21, dotQ, subP]; ring
  unfold bary_vw_w; rw [h, zero_div]

theorem bary_v_at_v2 (v0 v1 v2 : Point) : bary_vw_v v0 v1 v2 v2 = 0 := by
  have h : bary_d11 v0 v2 * bary_d20 v0 v1 v2 -
      bary_d01 v0 v1 v2 * bary_d21 v0 v2 v2 = 0 := by
    simp only [bary_d11, bary_d20, bary_d01, bary_d21, dotQ, subP]; ring
  unfold bary_vw_v; rw [h, zero_div]

theorem bary_w_at_v2 (v0 v1 v2 : Point) (hne : bary_denom v0 v1 v2 ≠ 0) :
    bary_vw_w v0 v1 v2 v2 = 1 := by
  have h : bary_d00 v0 v1 * bary_d21 v0 v2 v2 -
      bary_d01 v0 v1 v2 * bary_d20 v0 v1 v2 = bary_denom v0 v1 v2 := by
    simp only [bary_d00, bary_d11, bary_d20, bary_d01, bary_d21, bary_denom,
      dotQ, subP]; ring
  unfold bary_vw_w; rw [h, div_self hne]

theorem bary_v_at_centroid (v0 v1 v2 : Point) (hne : bary_denom v0 v1 v2 ≠ 0) :
    bary_vw_v v0 v1 v2 ((v0.1 + v1.1 + v2.1) / 3, (v0.2 + v1.2 + v2.2) / 3) =
      1 / 3 := by
  have h : bary_d11 v0 v2 *
        bary_d20 v0 v1 ((v0.1 + v1.1 + v2.1) / 3, (v0.2 + v1.2 + v2.2) / 3) -
      bary_d01 v0 v1 v2 *
        bary_d21 v0 v2 ((v0.1 + v1.1 + v2.1) / 3, (v0.2 + v1.2 + v2.2) / 3) =
      bary_denom v0 v1 v2 / 3 := by
    simp only [bary_d00, bary_d11, bary_d20, bary_d01, bary_d21, bary_denom,
      dotQ, subP]; ring
  unfold bary_vw_v; rw [h]; field_simp; ring

theorem bary_w_at_centroid (v0 v1 v2 : Point) (hne : bary_denom v0 v1 v2 ≠ 0) :
    bary_vw_w v0 v1 v2 ((v0.1 + v1.1 + v2.1) / 3, (v0.2 + v1.2 + v2.2) / 3) =
      1 / 3 := by
  have h : bary_d00 v0 v1 *
        bary_d21 v0 v2 ((v0.1 + v1.1 + v2.1) / 3, (v0.2 + v1.2 + v2.2) / 3) -
      bary_d01 v0 v1 v2 *
        bary_d20 v0 v1 ((v0.1 + v1.1 + v2.1) / 3, (v0.2 + v1.2 + v2.2) / 3) =
      bary_denom v0 v1 v2 / 3 := by
    simp only [bary_d00, bary_d11, bary_d20, bary_d01, bary_d21, bary_denom,
      dotQ, subP]; ring
  unfold bary_vw_w; rw [h]; field_simp; ring

theorem clipQ_id (x lo hi : ℚ) (h1 : lo ≤ x) (h2 : x ≤ hi) : clipQ x lo hi = x := by
  rw [clipQ, max_eq_left h1, min_eq_left h2]

theorem clipC_id (c : ColQ) (h1 : 0 ≤ c.r ∧ c.r ≤ 255) (h2 : 0 ≤ c.g ∧ c.g ≤ 255)
    (h3 : 0 ≤ c.b ∧ c.b ≤ 255) (h4 : 0 ≤ c.a ∧ c.a ≤ 255) :
    clipC c 0 255 = c := by
  simp only [clipC, clipQ_id _ _ _ h1.1 h1.2, clipQ_id _ _ _ h2.1 h2.2,
    clipQ_id _ _ _ h3.1 h3.2, clipQ_id _ _ _ h4.1 h4.2]

theorem clipC_texel (t : Texel) (h : TexelLe255 t) :
    clipC (texelToColQ t) 0 255 = texelToColQ t := by
  obtain ⟨h1, h2, h3, h4⟩ := h
  have k : ∀ n : ℕ, n ≤ 255 → 0 ≤ (n : ℚ) ∧ (n : ℚ) ≤ 255 := fun n hn =>
    ⟨by positivity, by exact_mod_cast hn⟩
  exact clipC_id _ (k _ h1) (k _ h2) (k _ h3) (k _ h4)

/-- C7: for a non-degenerate triangle (denominator at or above the 1e-8 threshold of the code) with valid uint8 vertex colors, the interpolated color at
each vertex equals the color of that vertex exactly, and the interpolated color at
the centroid equals the unweighted average of the three vertex colors
exactly (hence within any rounding tolerance). -/
theorem C7_vertex_and_centroid_interpolation (v0 v1 v2 : Point) (c0 c1 c2 : Texel)
    (hd : 1 / 100000000 ≤ |bary_denom v0 v1 v2|)
    (h0 : TexelLe255 c0) (h1 : TexelLe255 c1) (h2 : TexelLe255 c2) :
    barycentric_interpolate v0 v1 v2 c0 c1 c2 v0 = texelToColQ c0 ∧
    barycentric_interpolate v0 v1 v2 c0 c1 c2 v1 = texelToColQ c1 ∧
    barycentric_interpolate v0 v1 v2 c0 c1 c2 v2 = texelToColQ c2 ∧
    barycentric_interpolate v0 v1 v2 c0 c1 c2
        ((v0.1 + v1.1 + v2.1) / 3, (v0.2 + v1.2 + v2.2) / 3) =
      avgColQ c0 c1 c2 := by
  have hne : bary_denom v0 v1 v2 ≠ 0 := by
    intro h
    rw [h, abs_zero] at hd
    norm_num at hd
  have hn : ¬ |bary_denom v0 v1 v2| < 1 / 100000000 := not_lt.2 hd
  refine ⟨?_, ?_, ?_, ?_⟩
  · simp only [barycentric_interpolate]
    rw [if_neg hn, bary_v_at_v0, bary_w_at_v0]
    norm_num [clipQ]
    have hE : addC (addC (smulC 1 (texelToColQ c0)) (smulC 0 (texelToColQ c1)))
        (smulC 0 (texelToColQ c2)) = texelToColQ c0 := by
      simp [addC, smulC]
    rw [hE, clipC_texel c0 h0]
  · simp only [barycentric_interpolate]
    rw [if_neg hn, bary_v_at_v1 v0 v1 v2 hne, bary_w_at_v1]
    norm_num [clipQ]
    have hE : addC (addC (smulC 0 (texelToColQ c0)) (smulC 1 (texelToColQ c1)))
        (smulC 0 (texelToColQ c2)) = texelToColQ c1 := by
      simp [addC, smulC]
    rw [hE, clipC_texel c1 h1]
  · simp only [barycentric_interpolate]
    rw [if_neg hn, bary_v_at_v2, bary_w_at_v2 v0 v1 v2 hne]
    norm_num [clipQ]
    have hE : addC (addC (smulC 0 (texelToColQ c0)) (smulC 0 (texelToColQ c1)))
        (smulC 1 (texelToColQ c2)) = texelToColQ c2 := by
      simp [addC, smulC]
    rw [hE, clipC_texel c2 h2]
  · simp only [barycentric_interpolate]
    rw [if_neg hn, bary_v_at_centroid v0 v1 v2 hne, bary_w_at_centroid v0 v1 v2 hne]
    norm_num [clipQ]
    have hE : addC (addC (smulC (1 / 3) (texelToColQ c0))
        (smulC (1 / 3) (texelToColQ c1))) (smulC (1 / 3) (texelToColQ c2)) =
        avgColQ c0 c1 c2 := by
      simp only [addC, smulC, texelToColQ, avgColQ, ColQ.mk.injEq]
      refine ⟨by ring, by ring, by ring, by ring⟩
    rw [hE]
    obtain ⟨ha0, hb0, hc0, hd0⟩ := h0
    obtain ⟨ha1, hb1, hc1, hd1⟩ := h1
    obtain ⟨ha2, hb2, hc2, hd2⟩ := h2
    have havg : ∀ x y z : ℕ, x ≤ 255 → y ≤ 255 → z ≤ 255 →
        0 ≤ ((x : ℚ) + y + z) / 3 ∧ ((x : ℚ) + y + z) / 3 ≤ 255 := by
      intro x y z hx hy hz
      have hx2 : (x : ℚ) ≤ 255 := by exact_mod_cast hx
      have hy2 : (y : ℚ) ≤ 255 := by exact_mod_cast hy
      have hz2 : (z : ℚ) ≤ 255 := by exact_mod_cast hz
      constructor
      · positivity
      · linarith
    exact clipC_id _ (havg _ _ _ ha0 ha1 ha2) (havg _ _ _ hb0 hb1 hb2)
      (havg _ _ _ hc0 hc1 hc2) (havg _ _ _ hd0 hd1 hd2)

/-- Witness for C7 at the concrete unit-corner triangle with red, green and
blue vertex colors. -/
theorem C7_witness :
    1 / 100000000 ≤ |bary_denom (0, 0) (1, 0) (0, 1)| ∧
    TexelLe255 ⟨255, 0, 0, 255⟩ ∧
    barycentric_interpolate (0, 0) (1, 0) (0, 1) ⟨255, 0, 0, 255⟩ ⟨0, 255, 0, 255⟩
        ⟨0, 0, 255, 255⟩ (0, 0) = texelToColQ ⟨255, 0, 0, 255⟩ :=
  ⟨by norm_num [bary_denom, bary_d00, bary_d01, bary_d11, dotQ, subP],
   by decide,
   (C7_vertex_and_centroid_interpolation (0, 0) (1, 0) (0, 1) ⟨255, 0, 0, 255⟩
      ⟨0, 255, 0, 255⟩ ⟨0, 0, 255, 255⟩
      (by norm_num [bary_denom, bary_d00, bary_d01, bary_d11, dotQ, subP])
      (by decide) (by decide) (by decide)).1⟩

/-! ## Pointwise characterization of the rasterizer loops (claim C6) -/

theorem npIndex_of_nonneg (B : ℕ) (i : ℤ) (h : 0 ≤ i) : npIndex B i = i.toNat := by
  rw [npIndex, if_neg (not_lt.2 h)]

theorem mem_pyRange (lo hi z : ℤ) : z ∈ pyRange lo hi ↔ lo ≤ z ∧ z ≤ hi := by
  simp only [pyRange, List.mem_map, List.mem_range]
  constructor
  · rintro ⟨i, hi2, rfl⟩
    omega
  · intro h
    exact ⟨(z - lo).toNat, by omega, by omega⟩

theorem rasterInner_eval (B : ℕ) (q0 q1 q2 : ℤ × ℤ) (c0 c1 c2 : Texel) (y : ℤ)
    (xs : List ℤ) (buf : Buffer) (y2 x2 : ℕ)
    (hxs : ∀ x ∈ xs, 0 ≤ x) (hy : 0 ≤ y) :
    rasterInner B q0 q1 q2 c0 c1 c2 y xs buf y2 x2 =
      if y2 = y.toNat ∧ (x2 : ℤ) ∈ xs ∧ insideAt q0 q1 q2 (x2 : ℤ) y = true
      then colorAt q0 q1 q2 c0 c1 c2 (x2 : ℤ) y
      else buf y2 x2 := by
  induction xs generalizing buf with
  | nil => simp [rasterInner]
  | cons x xs ih =>
    have hx : 0 ≤ x := hxs x (by simp)
    have hxs2 : ∀ z ∈ xs, 0 ≤ z := fun z hz => hxs z (by simp [hz])
    rw [show rasterInner B q0 q1 q2 c0 c1 c2 y (x :: xs) buf =
        rasterInner B q0 q1 q2 c0 c1 c2 y xs
          (if insideAt q0 q1 q2 x y then
            writeBuf buf (npIndex B y) (npIndex B x) (colorAt q0 q1 q2 c0 c1 c2 x y)
          else buf) from rfl]
    rw [ih _ hxs2]
    by_cases hc1 : y2 = y.toNat ∧ (x2 : ℤ) ∈ xs ∧ insideAt q0 q1 q2 (x2 : ℤ) y = true
    · rw [if_pos hc1, if_pos ⟨hc1.1, by simp [hc1.2.1], hc1.2.2⟩]
    · rw [if_neg hc1]
      by_cases hin : insideAt q0 q1 q2 x y = true
      · rw [if_pos hin]
        by_cases hw : y2 = npIndex B y ∧ x2 = npIndex B x
        · have hyy : y2 = y.toNat := by rw [hw.1, npIndex_of_nonneg B y hy]
          have hxx : (x2 : ℤ) = x := by
            have h2 := hw.2
            rw [npIndex_of_nonneg B x hx] at h2
            omega
          rw [show writeBuf buf (npIndex B y) (npIndex B x)
              (colorAt q0 q1 q2 c0 c1 c2 x y) y2 x2 =
              colorAt q0 q1 q2 c0 c1 c2 x y from by
            simp only [writeBuf, if_pos hw]]
          rw [if_pos ⟨hyy, by simp [hxx], by rw [hxx]; exact hin⟩, hxx]
        · rw [show writeBuf buf (npIndex B y) (npIndex B x)
              (colorAt q0 q1 q2 c0 c1 c2 x y) y2 x2 = buf y2 x2 from by
            simp only [writeBuf, if_neg hw]]
          have hcond : ¬ (y2 = y.toNat ∧ (x2 : ℤ) ∈ x :: xs ∧
              insideAt q0 q1 q2 (x2 : ℤ) y = true) := by
            rintro ⟨ha, hb, hc⟩
            rcases List.mem_cons.1 hb with hbx | hbxs
            · refine hw ⟨by rw [ha, npIndex_of_nonneg B y hy], ?_⟩
              rw [npIndex_of_nonneg B x hx]
              omega
            · exact hc1 ⟨ha, hbxs, hc⟩
          rw [if_neg hcond]
      · rw [if_neg hin]
        have hcond : ¬ (y2 = y.toNat ∧ (x2 : ℤ) ∈ x :: xs ∧
            insideAt q0 q1 q2 (x2 : ℤ) y = true) := by
          rintro ⟨ha, hb, hc⟩
          rcases List.mem_cons.1 hb with hbx | hbxs
          · rw [hbx] at hc
            exact hin hc
          · exact hc1 ⟨ha, hbxs, hc⟩
        rw [if_neg hcond]

theorem rasterOuter_eval (B : ℕ) (q0 q1 q2 : ℤ × ℤ) (c0 c1 c2 : Texel)
    (xs ys : List ℤ) (buf : Buffer) (y2 x2 : ℕ)
    (hxs : ∀ x ∈ xs, 0 ≤ x) (hys : ∀ y ∈ ys, 0 ≤ y) :
    rasterOuter B q0 q1 q2 c0 c1 c2 xs ys buf y2 x2 =
      if (y2 : ℤ) ∈ ys ∧ (x2 : ℤ) ∈ xs ∧
          insideAt q0 q1 q2 (x2 : ℤ) (y2 : ℤ) = true
      then colorAt q0 q1 q2 c0 c1 c2 (x2 : ℤ) (y2 : ℤ)
      else buf y2 x2 := by
  induction ys generalizing buf with
  | nil => simp [rasterOuter]
  | cons y ys ih =>
    have hy : 0 ≤ y := hys y (by simp)
    have hys2 : ∀ z ∈ ys, 0 ≤ z := fun z hz => hys z (by simp [hz])
    rw [show rasterOuter B q0 q1 q2 c0 c1 c2 xs (y :: ys) buf =
        rasterOuter B q0 q1 q2 c0 c1 c2 xs ys
          (rasterInner B q0 q1 q2 c0 c1 c2 y xs buf) from rfl]
    rw [ih _ hys2]
    by_cases hc1 : (y2 : ℤ) ∈ ys ∧ (x2 : ℤ) ∈ xs ∧
        insideAt q0 q1 q2 (x2 : ℤ) (y2 : ℤ) = true
    · rw [if_pos hc1, if_pos ⟨by simp [hc1.1], hc1.2.1, hc1.2.2⟩]
    · rw [if_neg hc1, rasterInner_eval B q0 q1 q2 c0 c1 c2 y xs _ y2 x2 hxs hy]
      by_cases hc2 : y2 = y.toNat ∧ (x2 : ℤ) ∈ xs ∧
          insideAt q0 q1 q2 (x2 : ℤ) y = true
      · have hyy : (y2 : ℤ) = y := by
          have := hc2.1
          omega
        rw [if_pos hc2,
          if_pos (show (y2 : ℤ) ∈ y :: ys ∧ (x2 : ℤ) ∈ xs ∧
              insideAt q0 q1 q2 (x2 : ℤ) (y2 : ℤ) = true from
            ⟨by simp [hyy], hc2.2.1, by rw [hyy]; exact hc2.2.2⟩), hyy]
      · rw [if_neg hc2]
        have hcond : ¬ ((y2 : ℤ) ∈ y :: ys ∧ (x2 : ℤ) ∈ xs ∧
            insideAt q0 q1 q2 (x2 : ℤ) (y2 : ℤ) = true) := by
          rintro ⟨ha, hb, hc⟩
          rcases List.mem_cons.1 ha with hay | hays
          · refine hc2 ⟨by omega, hb, ?_⟩
            rw [hay] at hc
            exact hc
          · exact hc1 ⟨hays, hb, hc⟩
        rw [if_neg hcond]

theorem astypeInt_of_nonneg (q : ℚ) (h : 0 ≤ q) : astypeInt q = ⌊q⌋ := by
  rw [astypeInt, if_neg (not_lt.2 h)]

theorem mapUV_eq_specMapUV (B : ℕ) (uv : Point) (hB : 1 ≤ B)
    (h : inUnitSquare uv) : mapUV B uv = specMapUV B uv := by
  obtain ⟨h1, h2, h3, h4⟩ := h
  have hb : (0 : ℚ) ≤ (B : ℚ) - 1 := by
    have hc : (1 : ℚ) ≤ (B : ℚ) := by exact_mod_cast hB
    linarith
  unfold mapUV specMapUV
  rw [astypeInt_of_nonneg _ (mul_nonneg h1 hb), astypeInt_of_nonneg _ (mul_nonneg h3 hb)]

theorem specMapUV_bounds (B : ℕ) (uv : Point) (hB : 1 ≤ B) (h : inUnitSquare uv) :
    0 ≤ (specMapUV B uv).1 ∧ (specMapUV B uv).1 ≤ (B : ℤ) - 1 ∧
    0 ≤ (specMapUV B uv).2 ∧ (specMapUV B uv).2 ≤ (B : ℤ) - 1 := by
  obtain ⟨h1, h2, h3, h4⟩ := h
  have hb : (0 : ℚ) ≤ (B : ℚ) - 1 := by
    have hc : (1 : ℚ) ≤ (B : ℚ) := by exact_mod_cast hB
    linarith
  have hcast : ((B : ℚ) - 1) = (((B : ℤ) - 1 : ℤ) : ℚ) := by push_cast; ring
  refine ⟨?_, ?_, ?_, ?_⟩
  · exact Int.le_floor.2 (by simpa using mul_nonneg h1 hb)
  · calc ⌊uv.1 * ((B : ℚ) - 1)⌋ ≤ ⌊((B : ℚ) - 1)⌋ := Int.floor_le_floor (by nlinarith)
      _ = (B : ℤ) - 1 := by rw [hcast, Int.floor_intCast]
  · exact Int.le_floor.2 (by simpa using mul_nonneg h3 hb)
  · calc ⌊uv.2 * ((B : ℚ) - 1)⌋ ≤ ⌊((B : ℚ) - 1)⌋ := Int.floor_le_floor (by nlinarith)
      _ = (B : ℤ) - 1 := by rw [hcast, Int.floor_intCast]

/-- C6: for a face whose UV coordinates lie in the unit square, the
rasterizer loop of the source is pointwise exactly the spec description
`specRasterizeFace`: the floor-mapped points, the clamped integer bounding
box, the texel-center triangle test, the clamped truncated interpolated
color written at buffer position (y, x), and every uncovered texel left at
its prior value (so the value of a covered texel never depends on prior buffer
contents). Moreover for any face list, the face appended last wins on every
texel it covers. -/
theorem C6_rasterizer_refines_spec (B : ℕ) (f : Face) (hB : 1 ≤ B)
    (h0 : inUnitSquare f.uv0) (h1 : inUnitSquare f.uv1) (h2 : inUnitSquare f.uv2) :
    (∀ (buf : Buffer) (y x : ℕ),
      rasterizeFace B buf f y x = specRasterizeFace B f buf y x) ∧
    (∀ (fs : List Face) (buf : Buffer) (y x : ℕ), coveredBy B f x y →
      rasterizeFaces B (fs ++ [f]) buf y x =
        colorAt (specMapUV B f.uv0) (specMapUV B f.uv1) (specMapUV B f.uv2)
          f.c0 f.c1 f.c2 (x : ℤ) (y : ℤ)) := by
  obtain ⟨a0, a1, a2, a3⟩ := specMapUV_bounds B f.uv0 hB h0
  obtain ⟨b0, b1, b2, b3⟩ := specMapUV_bounds B f.uv1 hB h1
  obtain ⟨c0b, c1b, c2b, c3b⟩ := specMapUV_bounds B f.uv2 hB h2
  have hloX : max (min (specMapUV B f.uv0).1
      (min (specMapUV B f.uv1).1 (specMapUV B f.uv2).1)) 0 = specLoX B f := by
    unfold specLoX clampZ
    omega
  have hhiX : min (max (specMapUV B f.uv0).1
      (max (specMapUV B f.uv1).1 (specMapUV B f.uv2).1)) ((B : ℤ) - 1) =
      specHiX B f := by
    unfold specHiX clampZ
    omega
  have hloY : max (min (specMapUV B f.uv0).2
      (min (specMapUV B f.uv1).2 (specMapUV B f.uv2).2)) 0 = specLoY B f := by
    unfold specLoY clampZ
    omega
  have hhiY : min (max (specMapUV B f.uv0).2
      (max (specMapUV B f.uv1).2 (specMapUV B f.uv2).2)) ((B : ℤ) - 1) =
      specHiY B f := by
    unfold specHiY clampZ
    omega
  have hloX0 : 0 ≤ specLoX B f := by unfold specLoX clampZ; omega
  have hloY0 : 0 ≤ specLoY B f := by unfold specLoY clampZ; omega
  have main : ∀ (buf : Buffer) (y x : ℕ),
      rasterizeFace B buf f y x = specRasterizeFace B f buf y x := by
    intro buf y x
    simp only [rasterizeFace]
    rw [mapUV_eq_specMapUV B f.uv0 hB h0, mapUV_eq_specMapUV B f.uv1 hB h1,
      mapUV_eq_specMapUV B f.uv2 hB h2, hloX, hhiX, hloY, hhiY]
    rw [rasterOuter_eval B _ _ _ _ _ _ _ _ buf y x
      (fun z hz => le_trans hloX0 ((mem_pyRange _ _ z).1 hz).1)
      (fun z hz => le_trans hloY0 ((mem_pyRange _ _ z).1 hz).1)]
    have hiff : ((y : ℤ) ∈ pyRange (specLoY B f) (specHiY B f) ∧
        (x : ℤ) ∈ pyRange (specLoX B f) (specHiX B f) ∧
        insideAt (specMapUV B f.uv0) (specMapUV B f.uv1) (specMapUV B f.uv2)
          (x : ℤ) (y : ℤ) = true) ↔ coveredBy B f x y := by
      rw [mem_pyRange, mem_pyRange]
      unfold coveredBy
      tauto
    simp only [specRasterizeFace]
    exact if_congr hiff rfl rfl
  refine ⟨main, ?_⟩
  intro fs buf y x hcov
  rw [show rasterizeFaces B (fs ++ [f]) buf =
      rasterizeFace B (rasterizeFaces B fs buf) f from by
    simp [rasterizeFaces, List.foldl_append]]
  rw [main (rasterizeFaces B fs buf) y x]
  simp only [specRasterizeFace]
  rw [if_pos hcov]

/-- Witness for C6 at the concrete unit-corner triangle in a 2 by 2 buffer. -/
theorem C6_witness :
    (1 ≤ 2 ∧ inUnitSquare face0.uv0 ∧ inUnitSquare face0.uv1 ∧
      inUnitSquare face0.uv2) ∧
    (∀ (buf : Buffer) (y x : ℕ),
      rasterizeFace 2 buf face0 y x = specRasterizeFace 2 face0 buf y x) :=
  ⟨⟨by norm_num, by norm_num [inUnitSquare, face0], by norm_num [inUnitSquare, face0],
    by norm_num [inUnitSquare, face0]⟩,
   (C6_rasterizer_refines_spec 2 face0 (by norm_num)
      (by norm_num [inUnitSquare, face0]) (by norm_num [inUnitSquare, face0])
      (by norm_num [inUnitSquare, face0])).1⟩
